import Mathlib

/-!
Shallow embedding of `recommender_helper.py` from the
BogoBeautyFaceAnalysis repository, together with proofs about the
properties stated in the specification.

Conventions of the embedding:
* machine integers (uint8 channel values, pixel coordinates) are `ℕ`;
* the brightness comparison that steers the palette matcher's darkening
  loop is modelled bit-exactly as the IEEE-754 double computation CPython
  performs, in scaled-integer form (`floatBrightness56`), because exact
  ties one ulp apart change the loop's behaviour; brightness as a claim-
  level quantity is the exact rational `calculate_brightness`;
* the compositor's blend arithmetic is exact rational arithmetic; its
  claims are evaluated at weights 0, 1/2 and 1, where double arithmetic
  is exact;
* images are row-major lists of rows of BGR pixels, masks are lists of
  rows of channel values;
* Python `dict` arguments are association lists, `None`/exceptions are
  `Option`/`Except`.
-/

/-- Color is an (R, G, B) or (B, G, R) triple of uint8 channel values;
the channel order of each function is noted at its definition, following
the source docstrings. -/
abbrev Color := ℕ × ℕ × ℕ

/-- Pix is a BGR image pixel (OpenCV native order). -/
abbrev Pix := ℕ × ℕ × ℕ

/-- Pix4 is a BGRA pixel as produced by cv2.cvtColor(..., COLOR_BGR2BGRA). -/
abbrev Pix4 := ℕ × ℕ × ℕ × ℕ

/-- Img is a row-major image: a list of rows of BGR pixels. -/
abbrev Img := List (List Pix)

/-- Mask is a row-major single-channel uint8 grid. -/
abbrev Mask := List (List ℕ)

/-! ## HEX and RGB conversion (`hex_to_rgb`, `rgb_to_hex`) -/

/-- The hexadecimal digit characters with their values, exactly the
digits Python int(s, 16) accepts. -/
def hexPairs : List (Char × ℕ) :=
  [('0', 0), ('1', 1), ('2', 2), ('3', 3), ('4', 4), ('5', 5), ('6', 6), ('7', 7),
   ('8', 8), ('9', 9), ('a', 10), ('b', 11), ('c', 12), ('d', 13), ('e', 14), ('f', 15),
   ('A', 10), ('B', 11), ('C', 12), ('D', 13), ('E', 14), ('F', 15)]

/-- Value of one hexadecimal digit character; any other character is a
parse failure. -/
def hexDigit (c : Char) : Option ℕ := hexPairs.lookup c

/-- Python int(two-character slice, 16). -/
def parseHex2 (c1 c2 : Char) : Option ℕ :=
  match hexDigit c1, hexDigit c2 with
  | some x, some y => some (16 * x + y)
  | _, _ => none

/-- Embedding of `hex_to_rgb`: strip every leading '#' (Python lstrip),
then parse the three two-character slices [0:2], [2:4], [4:6] as base-16
integers.  The source indexes the first six characters; the embedding is
stated for the well-formed case of exactly six remaining characters and
returns `none` where Python would raise ValueError or IndexError. -/
def hex_to_rgb (s : String) : Option Color :=
  match s.data.dropWhile (fun c => c == '#') with
  | [c1, c2, c3, c4, c5, c6] =>
    match parseHex2 c1 c2, parseHex2 c3 c4, parseHex2 c5 c6 with
    | some r, some g, some b => some (r, g, b)
    | _, _, _ => none
  | _ => none

/-- Lowercase hexadecimal digit character for a value below 16, as
produced by Python format specifier x. -/
def hexCharOf (n : ℕ) : Char :=
  if n < 10 then Char.ofNat (48 + n) else Char.ofNat (87 + n)

/-- Two lowercase hex digits of a channel value, as produced by the
Python format specifier 02x on a value below 256. -/
def toHex2 (n : ℕ) : List Char :=
  [hexCharOf (n / 16), hexCharOf (n % 16)]

/-- Embedding of `rgb_to_hex`: the format string produces a '#' followed
by three zero-padded lowercase hex byte values. -/
def rgb_to_hex (c : Color) : String :=
  ⟨'#' :: (toHex2 c.1 ++ toHex2 c.2.1 ++ toHex2 c.2.2)⟩

/-- Character-wise lowercase of a string (case-insensitive comparison is
stated through equality of lowercased strings). -/
def lowerStr (s : String) : String := ⟨s.data.map Char.toLower⟩

/-! ## Brightness and darkening -/

/-- Embedding of `calculate_brightness` as an exact quantity: perceived
brightness 0.299 R + 0.587 G + 0.114 B of an RGB color, as a rational.
This is the brightness the claims speak about; the bit-exact double
computation the source actually performs is `floatBrightness56` below,
and the two can disagree about strictness at exact ties (they stay
within an error far below the 0.001 granularity of distinct exact
values, see `floatBrightness_lt_imp_le`). -/
def calculate_brightness (c : Color) : ℚ :=
  0.299 * (c.1 : ℚ) + 0.587 * (c.2.1 : ℚ) + 0.114 * (c.2.2 : ℚ)

/-- The exact brightness scaled by 1000, as a natural number.  The scale
is exact (0.299 = 299/1000 and so on), so every comparison of two exact
brightness values coincides with the comparison of the scaled values
(lemmas `calculate_brightness_lt_iff` and `calculate_brightness_le_iff`). -/
def brightness1000 (c : Color) : ℕ := 299 * c.1 + 587 * c.2.1 + 114 * c.2.2

/-- Number of binary digits of a natural number, by fuelled structural
recursion so that the kernel can evaluate it; 128 units of fuel cover
every value arising here (all below 2 ^ 64). -/
def bitLenAux : ℕ → ℕ → ℕ
  | 0, _ => 0
  | fuel + 1, n => if n = 0 then 0 else bitLenAux fuel (n / 2) + 1

/-- Number of binary digits of n. -/
def bitLen (n : ℕ) : ℕ := bitLenAux 128 n

/-- Round a nonnegative value, given as an integer on a fixed
power-of-two grid, to 53 significant bits with ties to even: this is
IEEE-754 double rounding on the scaled-integer representation.  A value
of at most 53 bits is exact; otherwise the value is rounded to the
nearest multiple of 2 ^ (bitLen n - 53), ties going to the even
multiple. -/
def roundMantissa (n : ℕ) : ℕ :=
  let t := bitLen n
  if t ≤ 53 then n
  else
    let k := t - 53
    let q := n / 2 ^ k
    let r := n % 2 ^ k
    let half := 2 ^ (k - 1)
    if half < r then (q + 1) * 2 ^ k
    else if r < half then q * 2 ^ k
    else (if q % 2 = 0 then q else q + 1) * 2 ^ k

/-- The IEEE-754 double nearest 0.299, scaled by 2 ^ 56 (an integer:
the double has exponent at least -56 here). -/
def c299 : ℕ := 21545220617340452

/-- The IEEE-754 double nearest 0.587, scaled by 2 ^ 56. -/
def c587 : ℕ := 42297807700263696

/-- The IEEE-754 double nearest 0.114, scaled by 2 ^ 56. -/
def c114 : ℕ := 8214565720323785

/-- The brightness 0.299*c[0] + 0.587*c[1] + 0.114*c[2] exactly as
CPython computes it on integer channels in IEEE-754 double arithmetic,
scaled by 2 ^ 56: each product and each left-associated sum is rounded
to nearest-even double by `roundMantissa`.  Every double arising in this
computation for channels in 0..255 is an integer multiple of 2 ^ -56
(the smallest nonzero intermediate is 0.114, in the binade with ulp
2 ^ -56), so the scaled-integer arithmetic is exact before each
rounding step.  This model agrees bit-for-bit with CPython's float
evaluation of the source expression on the whole 0..255 channel cube. -/
def floatBrightness56 (c : Color) : ℕ :=
  roundMantissa
    (roundMantissa (roundMantissa (c299 * c.1) + roundMantissa (c587 * c.2.1)) +
      roundMantissa (c114 * c.2.2))

/-- Embedding of `darken_color` at the factor 0.9 used by the source:
each channel becomes int(c * 0.9), i.e. the floor 9 * c / 10 (for
0 ≤ c ≤ 255 the float product rounds to a double whose truncation equals
the exact floor), and the source's max 0 clamp is a no-op on ℕ. -/
def darken_color (c : Color) : Color :=
  (9 * c.1 / 10, 9 * c.2.1 / 10, 9 * c.2.2 / 10)

/-- Iterated darkening: darkenIter n c is darken_color applied n times. -/
def darkenIter : ℕ → Color → Color
  | 0, c => c
  | n + 1, c => darkenIter n (darken_color c)

/-! ## Palette matching (`recommend_complementary_colors`) -/

/-- Embedding of `calculate_color_distance`, up to the final square
root: the sum of squared channel differences as an integer.  The source
takes np.sqrt of this value and uses it only as a minimisation key;
square root is strictly monotone, and for distinct sums below
3 * 255 ^ 2 the float square roots are distinct and ordered the same
way, so minimisation by the squared distance selects the same element. -/
def calculate_color_distance_sq (c1 c2 : Color) : ℤ :=
  ((c1.1 : ℤ) - c2.1) ^ 2 + ((c1.2.1 : ℤ) - c2.2.1) ^ 2 + ((c1.2.2 : ℤ) - c2.2.2) ^ 2

/-- Python min(list, key=f): first element attaining the minimal key, or
none on an empty list (where Python raises ValueError). -/
def argminBy (f : Color → ℤ) : List Color → Option Color
  | [] => none
  | x :: xs => some (xs.foldl (fun best c => if f c < f best then c else best) x)

/-- The three palette categories of the color scheme JSON; each entry
stands for hex_to_rgb of the hex field of the corresponding JSON object,
exactly as `recommend_complementary_colors` consumes them. -/
structure ColorScheme where
  foundation_colors : List Color
  eyeshadow_colors : List Color
  lipstick_colors : List Color
deriving DecidableEq, Repr

/-- Outcomes of `recommend_complementary_colors` other than a normal
return: `emptyCategory` models the ValueError Python min raises on an
empty category; `loopDiverges` marks inputs on which the source's
while-loop never exits (the embedding is total, and the lemma
`recommend_loopDiverges_no_exit` proves the marker faithful: it is
returned exactly when no iteration count ever satisfies the exit
condition). -/
inductive RecErr where
  | emptyCategory : RecErr
  | loopDiverges : RecErr
deriving DecidableEq, Repr

/-- Decidable equality for Except values, so concrete pipeline results
can be checked by evaluation. -/
instance {ε α : Type} [DecidableEq ε] [DecidableEq α] : DecidableEq (Except ε α) := fun x y =>
  match x, y with
  | Except.ok a, Except.ok b =>
      if h : a = b then Decidable.isTrue (congrArg Except.ok h)
      else Decidable.isFalse (fun hx => h (Except.ok.inj hx))
  | Except.error a, Except.error b =>
      if h : a = b then Decidable.isTrue (congrArg Except.error h)
      else Decidable.isFalse (fun hx => h (Except.error.inj hx))
  | Except.ok _, Except.error _ => Decidable.isFalse (fun hx => Except.noConfusion hx)
  | Except.error _, Except.ok _ => Decidable.isFalse (fun hx => Except.noConfusion hx)

/-- Search bound for the darkening loop: after c.1 + c.2.1 + c.2.2
steps the color is exactly (0,0,0), a fixed point, so if the strict
float brightness test fails at every count up to and including that
bound it fails forever. -/
def searchBound (c : Color) : ℕ := c.1 + c.2.1 + c.2.2 + 1

/-- Embedding of `recommend_complementary_colors`: stable minimum
distance search per category, then the while-loop that darkens the
chosen lipstick until its brightness is strictly below the foundation
brightness.  The loop condition compares the double-precision
brightness values exactly as the source does (`floatBrightness56`),
which matters at exact ties one ulp apart.  The loop is rendered by
searching for the least iteration count satisfying the exit test; by
`recommend_loopDiverges_no_exit` failure of the bounded search
coincides with true divergence of the source loop. -/
def recommend_complementary_colors (average_skin_color average_lip_color : Color)
    (color_scheme : ColorScheme) : Except RecErr (Color × Color × Color) :=
  match argminBy (fun f => calculate_color_distance_sq f average_skin_color)
          color_scheme.foundation_colors,
        argminBy (fun e => calculate_color_distance_sq e average_skin_color)
          color_scheme.eyeshadow_colors,
        argminBy (fun l => calculate_color_distance_sq l average_lip_color)
          color_scheme.lipstick_colors with
  | some f, some e, some l =>
    let foundation_brightness := floatBrightness56 f
    match (List.range (searchBound l)).find?
        (fun n => decide (floatBrightness56 (darkenIter n l) < foundation_brightness)) with
    | some n => Except.ok (f, e, darkenIter n l)
    | none => Except.error RecErr.loopDiverges
  | _, _, _ => Except.error RecErr.emptyCategory

/-! ## Mean region color (`compute_mean_skin_color`, `compute_mean_lip_color`) -/

/-- Largest value occurring in a mask (np.max over the grid); 0 on an
empty grid. -/
def maskMax (m : Mask) : ℕ :=
  (m.map (fun row => row.foldr max 0)).foldr max 0

/-- Normalisation step of the mean color functions: a boolean-style 0/1
mask (max equal to 1) is scaled to 0/255; the dtype and channel-count
branches of the source are plumbing with no effect on a single-channel
uint8 grid and are not modelled. -/
def normMask (m : Mask) : Mask :=
  if maskMax m = 1 then m.map (fun row => row.map (fun v => v * 255)) else m

/-- cv2.bitwise_and(frame, frame, mask): the pixel where the mask is
nonzero, black where it is zero. -/
def maskedImage (frame : Img) (m : Mask) : Img :=
  List.zipWith (fun row mrow =>
    List.zipWith (fun (p : Pix) (v : ℕ) => if v ≠ 0 then p else (0, 0, 0)) row mrow)
    frame m

/-- The pixel rows flattened and restricted to pixels with every channel
strictly positive: masked[np.where((masked > [0,0,0]).all(axis=2))]. -/
def selectedPixels (frame : Img) (m : Mask) : List Pix :=
  (maskedImage frame m).flatten.filter
    (fun p => decide (0 < p.1) && decide (0 < p.2.1) && decide (0 < p.2.2))

/-- Per-channel arithmetic mean of a BGR pixel list, truncated to an
integer and reordered to RGB, as int(np.mean(..., axis=0)) followed by
the (mean[2], mean[1], mean[0]) reordering.  np.mean sums the uint8
values exactly in float64 and int() truncates the nonnegative quotient,
which is natural division here. -/
def meanColorRGB (px : List Pix) : Color :=
  ((px.map (fun p => p.2.2)).sum / px.length,
   (px.map (fun p => p.2.1)).sum / px.length,
   (px.map (fun p => p.1)).sum / px.length)

/-- Embedding of `compute_mean_skin_color`: mean of the surviving masked
pixels in RGB order, or the fallback (200, 180, 160) when none survive. -/
def compute_mean_skin_color (frame : Img) (face_mask : Mask) : Color :=
  let pixels := selectedPixels frame (normMask face_mask)
  if pixels.length = 0 then (200, 180, 160) else meanColorRGB pixels

/-- Embedding of `compute_mean_lip_color`: identical to the skin
variant, with the fallback (150, 50, 70). -/
def compute_mean_lip_color (frame : Img) (lips_mask : Mask) : Color :=
  let pixels := selectedPixels frame (normMask lips_mask)
  if pixels.length = 0 then (150, 50, 70) else meanColorRGB pixels

/-! ## Compositing (`apply_makeup_directly`) -/

/-- saturate_cast<uchar> of an integer: clamp into [0, 255]. -/
def saturate (z : ℤ) : ℕ := (min 255 (max 0 z)).toNat

/-- One channel of cv2.addWeighted(src1, 1 - opacity, src2, opacity, 0):
round the weighted sum to the nearest integer and saturate.  OpenCV
rounds exact halves to even; `round` rounds them up; every value a claim
evaluates is an exact integer, where the two agree. -/
def addWeightedCh (opacity : ℚ) (a b : ℕ) : ℕ :=
  saturate (round ((1 - opacity) * (a : ℚ) + opacity * (b : ℚ)))

/-- cv2.addWeighted on one BGRA pixel. -/
def addWeightedPix (opacity : ℚ) (p q : Pix4) : Pix4 :=
  (addWeightedCh opacity p.1 q.1, addWeightedCh opacity p.2.1 q.2.1,
   addWeightedCh opacity p.2.2.1 q.2.2.1, addWeightedCh opacity p.2.2.2 q.2.2.2)

/-- Embedding of `apply_makeup_directly`: build the BGRA makeup layer
(the makeup color with alpha int(opacity * 255) on the masked pixels,
transparent black elsewhere), convert the image to BGRA with alpha 255,
blend the two layers with cv2.addWeighted(image, 1 - opacity, layer,
opacity, 0), and drop the alpha channel again (BGRA2BGR).  The layer has
the shape of the image, which numpy requires to equal the mask shape. -/
def apply_makeup_directly (image : Img) (mask : Mask) (makeup_color : Pix)
    (opacity : ℚ) : Img :=
  let makeup_bgra : Pix4 :=
    (makeup_color.1, makeup_color.2.1, makeup_color.2.2, (opacity * 255).floor.toNat)
  let makeup_layer : List (List Pix4) :=
    mask.map (fun mrow => mrow.map (fun v => if v ≠ 0 then makeup_bgra else (0, 0, 0, 0)))
  let image_bgra : List (List Pix4) :=
    image.map (fun row => row.map (fun p => (p.1, p.2.1, p.2.2, 255)))
  let blended := List.zipWith (fun row lrow =>
    List.zipWith (addWeightedPix opacity) row lrow) image_bgra makeup_layer
  blended.map (fun row => row.map (fun q => (q.1, q.2.1, q.2.2.1)))

/-! ## Mask building (`add_reverse_mask_and_lips`) -/

/-- Landmark pixel coordinate. -/
abbrev Point := ℕ × ℕ

/-- A polygon rasteriser: which grid cell (row, column) lies inside the
filled polygon with the given vertices.  cv2.fillPoly's scan-line
rasterisation is external library code; every claim about the mask
builder holds for an arbitrary rasteriser, so the builder is
parameterised over it. -/
abbrev Raster := List Point → ℕ → ℕ → Bool

/-- One row of cv2.fillPoly: write `color` at every cell of row `y` the
rasteriser puts inside the polygon, keep every other cell. -/
def fillRow (rast : Raster) (pts : List Point) (color : ℕ) (y : ℕ) : ℕ → List ℕ → List ℕ
  | _, [] => []
  | x, v :: vs => (if rast pts y x then color else v) :: fillRow rast pts color y (x + 1) vs

/-- Rows of cv2.fillPoly from row index `y` down. -/
def fillRows (rast : Raster) (pts : List Point) (color : ℕ) : ℕ → Mask → Mask
  | _, [] => []
  | y, row :: rows => fillRow rast pts color y 0 row :: fillRows rast pts color (y + 1) rows

/-- cv2.fillPoly(mask, [pts], color): write `color` at every cell the
rasteriser puts inside the polygon, keep every other cell. -/
def fillPoly (rast : Raster) (m : Mask) (pts : List Point) (color : ℕ) : Mask :=
  fillRows rast pts color 0 m

/-- The `face_points` table of MediaPipe landmark indices, in the
source's insertion order. -/
def face_points : List (String × List ℕ) :=
  [("BLUSH_LEFT", [50]),
   ("BLUSH_RIGHT", [280]),
   ("LEFT_EYE", [33, 246, 161, 160, 159, 158, 157, 173, 133, 155, 154, 153, 145, 144, 163, 7, 33]),
   ("RIGHT_EYE", [362, 298, 384, 385, 386, 387, 388, 466, 263, 249, 390, 373, 374, 380, 381, 382, 362]),
   ("EYELINER_LEFT", [243, 112, 26, 22, 23, 24, 110, 25, 226, 130, 33, 7, 163, 144, 145, 153, 154, 155, 133, 243]),
   ("EYELINER_RIGHT", [463, 362, 382, 381, 380, 374, 373, 390, 249, 263, 359, 446, 255, 339, 254, 253, 252, 256, 341, 463]),
   ("EYESHADOW_LEFT", [226, 247, 30, 29, 27, 28, 56, 190, 243, 173, 157, 158, 159, 160, 161, 246, 33, 130, 226]),
   ("EYESHADOW_RIGHT", [463, 414, 286, 258, 257, 259, 260, 467, 446, 359, 263, 466, 388, 387, 386, 385, 384, 398, 362, 463]),
   ("FACE", [152, 148, 176, 149, 150, 136, 172, 58, 132, 93, 234, 127, 162, 21, 54, 103, 67, 109, 10, 338, 297, 332, 284, 251, 389, 454, 323, 401, 361, 435, 288, 397, 365, 379, 378, 400, 377, 152]),
   ("LIP_UPPER", [61, 185, 40, 39, 37, 0, 267, 269, 270, 409, 291, 308, 415, 310, 312, 13, 82, 81, 80, 191, 78]),
   ("LIP_LOWER", [61, 146, 91, 181, 84, 17, 314, 405, 321, 375, 291, 308, 324, 402, 317, 14, 87, 178, 88, 95, 78, 61]),
   ("EYEBROW_LEFT", [55, 107, 66, 105, 63, 70, 46, 53, 52, 65, 55]),
   ("EYEBROW_RIGHT", [285, 336, 296, 334, 293, 300, 276, 283, 295, 285])]

/-- The features removed from the face mask. -/
def features_to_remove : List String := ["LEFT_EYE", "RIGHT_EYE"]

/-- A zero mask of the same shape as the template grid
(np.zeros(mask.shape[:2], dtype=np.uint8)). -/
def zerosLike (template : Img) : Mask :=
  template.map (fun row => row.map (fun _ => 0))

/-- Embedding of `add_reverse_mask_and_lips`: start from zero masks
shaped like the template image; for every feature of `face_points` not
in `features_to_remove`, resolve its landmark indices through the
coordinate map (skipping absent indices) and fill the polygon into the
face mask when at least one point resolved; fill the lip connection
polygon into the lips mask the same way.  The `face_connections`
argument is accepted and ignored exactly as in the source, which reads
the global `face_points` table instead. -/
def add_reverse_mask_and_lips (rast : Raster) (mask : Img)
    (idx_to_coordinates : List (ℕ × Point))
    (face_connections lip_connections : List ℕ) : Mask × Mask :=
  let _ := face_connections
  let face_mask0 := zerosLike mask
  let lips_mask0 := zerosLike mask
  let face_mask := face_points.foldl (fun fm feat =>
    if features_to_remove.contains feat.1 then fm
    else
      let points := feat.2.filterMap (fun idx => idx_to_coordinates.lookup idx)
      if points.isEmpty then fm else fillPoly rast fm points 255) face_mask0
  let lips_points := lip_connections.filterMap (fun idx => idx_to_coordinates.lookup idx)
  let lips_mask :=
    if lips_points.isEmpty then lips_mask0 else fillPoly rast lips_mask0 lips_points 255
  (face_mask, lips_mask)

/-! ## Lemmas about brightness and darkening -/

/-- calculate_brightness is the scaled brightness divided by 1000. -/
theorem calculate_brightness_eq (c : Color) :
    calculate_brightness c = (brightness1000 c : ℚ) / 1000 := by
  unfold calculate_brightness brightness1000
  rw [show (0.299 : ℚ) = 299 / 1000 by norm_num,
      show (0.587 : ℚ) = 587 / 1000 by norm_num,
      show (0.114 : ℚ) = 114 / 1000 by norm_num]
  push_cast
  ring

/-- Strict brightness comparisons agree between the rational and the
scaled integer form. -/
theorem calculate_brightness_lt_iff (c d : Color) :
    calculate_brightness c < calculate_brightness d ↔
      brightness1000 c < brightness1000 d := by
  rw [calculate_brightness_eq, calculate_brightness_eq,
    div_lt_div_iff_of_pos_right (by norm_num)]
  exact_mod_cast Iff.rfl

/-- Non-strict brightness comparisons agree between the rational and
the scaled integer form. -/
theorem calculate_brightness_le_iff (c d : Color) :
    calculate_brightness c ≤ calculate_brightness d ↔
      brightness1000 c ≤ brightness1000 d := by
  rw [calculate_brightness_eq, calculate_brightness_eq,
    div_le_div_iff_of_pos_right (by norm_num)]
  exact_mod_cast Iff.rfl

/-- Brightness is never negative. -/
theorem calculate_brightness_nonneg (c : Color) : 0 ≤ calculate_brightness c := by
  unfold calculate_brightness
  positivity

/-- Brightness vanishes exactly on black. -/
theorem brightness1000_eq_zero_iff (c : Color) :
    brightness1000 c = 0 ↔ c = ((0, 0, 0) : Color) := by
  obtain ⟨r, g, b⟩ := c
  simp only [brightness1000, Prod.mk.injEq]
  omega

/-- Each channel of darken_color is at most the original channel. -/
theorem darken_color_le (c : Color) :
    (darken_color c).1 ≤ c.1 ∧ (darken_color c).2.1 ≤ c.2.1 ∧
      (darken_color c).2.2 ≤ c.2.2 := by
  refine ⟨?_, ?_, ?_⟩ <;> · unfold darken_color; dsimp only; omega

/-- Darkening does not increase scaled brightness. -/
theorem brightness1000_darken_le (c : Color) :
    brightness1000 (darken_color c) ≤ brightness1000 c := by
  obtain ⟨h1, h2, h3⟩ := darken_color_le c
  unfold brightness1000
  have := Nat.mul_le_mul_left 299 h1
  have := Nat.mul_le_mul_left 587 h2
  have := Nat.mul_le_mul_left 114 h3
  omega

/-- The channel sum of a nonblack color strictly decreases under
darkening. -/
theorem darken_color_sum_lt (c : Color) (h : 0 < c.1 + c.2.1 + c.2.2) :
    (darken_color c).1 + (darken_color c).2.1 + (darken_color c).2.2 <
      c.1 + c.2.1 + c.2.2 := by
  obtain ⟨r, g, b⟩ := c
  simp only [darken_color] at *
  omega

/-- darkenIter unfolded from the outside. -/
theorem darkenIter_succ_outer (n : ℕ) (c : Color) :
    darkenIter (n + 1) c = darken_color (darkenIter n c) := by
  induction n generalizing c with
  | zero => rfl
  | succ m ih => rw [show m + 1 + 1 = m + 1 + 1 from rfl, darkenIter, ih, darkenIter]

/-- After as many steps as the channel sum, iterated darkening has
reached black (and stays there, since black is a fixed point). -/
theorem darkenIter_eq_zero (n : ℕ) (c : Color)
    (h : c.1 + c.2.1 + c.2.2 ≤ n) : darkenIter n c = ((0, 0, 0) : Color) := by
  induction n generalizing c with
  | zero =>
    obtain ⟨r, g, b⟩ := c
    simp only at h
    obtain ⟨rfl, rfl, rfl⟩ : r = 0 ∧ g = 0 ∧ b = 0 := by omega
    rfl
  | succ m ih =>
    rw [darkenIter]
    rcases Nat.eq_zero_or_pos (c.1 + c.2.1 + c.2.2) with h0 | h0
    · obtain ⟨r, g, b⟩ := c
      simp only at h0
      obtain ⟨rfl, rfl, rfl⟩ : r = 0 ∧ g = 0 ∧ b = 0 := by omega
      exact ih _ (by simp [darken_color])
    · exact ih _ (by have := darken_color_sum_lt c h0; omega)

/-! ## Lemmas about the palette matcher -/

/-- argminBy finds nothing exactly on the empty list. -/
theorem argminBy_eq_none_iff (f : Color → ℤ) (l : List Color) :
    argminBy f l = none ↔ l = [] := by
  cases l <;> simp [argminBy]

/-- Justification of the loopDiverges marker: if the bounded search for
an exit count fails, the loop condition lipstick_brightness >=
foundation_brightness holds after every number of darkening steps, so
the source's while-loop never exits. -/
theorem recommend_loopDiverges_no_exit (f l : Color)
    (h : (List.range (searchBound l)).find?
      (fun n => decide (floatBrightness56 (darkenIter n l) < floatBrightness56 f)) = none) :
    ∀ n : ℕ, floatBrightness56 f ≤ floatBrightness56 (darkenIter n l) := by
  rw [List.find?_eq_none] at h
  have hsum : darkenIter (l.1 + l.2.1 + l.2.2) l = ((0, 0, 0) : Color) :=
    darkenIter_eq_zero _ l le_rfl
  have hmem : l.1 + l.2.1 + l.2.2 ∈ List.range (searchBound l) := by
    simp [searchBound, List.mem_range]
  have := h _ hmem
  rw [decide_eq_true_iff, hsum] at this
  intro n
  have h0 : floatBrightness56 ((0, 0, 0) : Color) = 0 := by decide
  rw [h0] at this
  omega

/-- When the matched foundation has nonzero double brightness, the
bounded search for an exit count succeeds: at the latest once the
lipstick has darkened to black, its brightness 0.0 is strictly below. -/
theorem recommend_loop_exit_of_pos (f l : Color) (h : 0 < floatBrightness56 f) :
    ∃ n, (List.range (searchBound l)).find?
      (fun n => decide (floatBrightness56 (darkenIter n l) < floatBrightness56 f)) = some n := by
  rw [← Option.isSome_iff_exists, List.find?_isSome]
  refine ⟨l.1 + l.2.1 + l.2.2, by simp [searchBound, List.mem_range], ?_⟩
  rw [decide_eq_true_iff, darkenIter_eq_zero _ l le_rfl]
  have h0 : floatBrightness56 ((0, 0, 0) : Color) = 0 := by decide
  omega

/-- Fuelled bit length is bounded by any exponent bounding the input. -/
theorem bitLenAux_le (fuel : ℕ) : ∀ (n k : ℕ), n < 2 ^ k → k ≤ fuel →
    bitLenAux fuel n ≤ k := by
  induction fuel with
  | zero => intro n k _ _; exact Nat.zero_le k
  | succ fuel ih =>
    intro n k h hk
    rw [bitLenAux]
    split
    · exact Nat.zero_le k
    · rename_i hn
      cases k with
      | zero => exact absurd (by omega : n = 0) hn
      | succ k2 =>
        have hhalf : n / 2 < 2 ^ k2 := by
          rw [Nat.div_lt_iff_lt_mul (by norm_num)]
          rw [pow_succ] at h
          exact h
        have := ih (n / 2) k2 hhalf (by omega)
        omega

/-- Values below 2 ^ 64 have bit length at most 64. -/
theorem bitLen_le_64 (n : ℕ) (h : n < 2 ^ 64) : bitLen n ≤ 64 :=
  bitLenAux_le 128 n 64 h (by norm_num)

/-- Double rounding moves a value below 2 ^ 64 by at most 2 ^ 11: the
grid spacing is 2 ^ (bitLen n - 53) ≤ 2 ^ 11 and the result is one of
the two neighbouring grid points. -/
theorem roundMantissa_err (n : ℕ) (h : n < 2 ^ 64) :
    roundMantissa n ≤ n + 2048 ∧ n ≤ roundMantissa n + 2048 := by
  unfold roundMantissa
  dsimp only
  split
  · omega
  · rename_i ht
    have ht64 : bitLen n ≤ 64 := bitLen_le_64 n h
    have h2k : 2 ^ (bitLen n - 53) ≤ 2048 := by
      calc 2 ^ (bitLen n - 53) ≤ 2 ^ 11 := Nat.pow_le_pow_right (by norm_num) (by omega)
        _ = 2048 := by norm_num
    have hpos : 0 < 2 ^ (bitLen n - 53) := Nat.pos_pow_of_pos _ (by norm_num)
    generalize 2 ^ (bitLen n - 53) = P at h2k hpos ⊢
    have hdm : n / P * P + n % P = n := Nat.div_add_mod' n P
    have hmod : n % P < P := Nat.mod_lt n hpos
    have hs : (n / P + 1) * P = n / P * P + P := by ring
    split
    · rw [hs]
      generalize n / P * P = X at hdm ⊢
      omega
    · split
      · generalize n / P * P = X at hdm ⊢
        omega
      · split
        · generalize n / P * P = X at hdm ⊢
          omega
        · rw [hs]
          generalize n / P * P = X at hdm ⊢
          omega

/-- The double-precision brightness stays within 10240 (in 2 ^ 56
scale, i.e. within 2 ^ -42.7 absolutely) of the exact sum of the
rounded constants times the channels: three product roundings and two
sum roundings, each moving the value by at most 2048. -/
theorem floatBrightness56_close (c : Color)
    (h1 : c.1 ≤ 255) (h2 : c.2.1 ≤ 255) (h3 : c.2.2 ≤ 255) :
    floatBrightness56 c ≤ c299 * c.1 + c587 * c.2.1 + c114 * c.2.2 + 10240 ∧
    c299 * c.1 + c587 * c.2.1 + c114 * c.2.2 ≤ floatBrightness56 c + 10240 := by
  have hc1 : c299 * c.1 ≤ c299 * 255 := Nat.mul_le_mul_left _ h1
  have hc2 : c587 * c.2.1 ≤ c587 * 255 := Nat.mul_le_mul_left _ h2
  have hc3 : c114 * c.2.2 ≤ c114 * 255 := Nat.mul_le_mul_left _ h3
  have hv1 : c299 * 255 = 5494031257421815260 := by norm_num [c299]
  have hv2 : c587 * 255 = 10785940963567242480 := by norm_num [c587]
  have hv3 : c114 * 255 = 2094714258682565175 := by norm_num [c114]
  have h64 : (2 : ℕ) ^ 64 = 18446744073709551616 := by norm_num
  have e1 := roundMantissa_err (c299 * c.1) (by omega)
  have e2 := roundMantissa_err (c587 * c.2.1) (by omega)
  have e3 := roundMantissa_err (c114 * c.2.2) (by omega)
  have e4 := roundMantissa_err
    (roundMantissa (c299 * c.1) + roundMantissa (c587 * c.2.1)) (by omega)
  have e5 := roundMantissa_err
    (roundMantissa (roundMantissa (c299 * c.1) + roundMantissa (c587 * c.2.1)) +
      roundMantissa (c114 * c.2.2)) (by omega)
  unfold floatBrightness56
  omega

/-- Transfer from the program's double comparison to the exact
brightness: a strict double inequality implies a non-strict exact one,
because distinct exact brightnesses of uint8 colors differ by at least
0.001 while the double computation stays within about 2 ^ -42 of the
exact value.  Equality of the exact brightnesses cannot be excluded:
the doubles of an exact tie can differ by one ulp. -/
theorem floatBrightness_lt_imp_le (c d : Color)
    (hc1 : c.1 ≤ 255) (hc2 : c.2.1 ≤ 255) (hc3 : c.2.2 ≤ 255)
    (hd1 : d.1 ≤ 255) (hd2 : d.2.1 ≤ 255) (hd3 : d.2.2 ≤ 255)
    (h : floatBrightness56 c < floatBrightness56 d) :
    brightness1000 c ≤ brightness1000 d := by
  by_contra hgt
  have hclose_c := floatBrightness56_close c hc1 hc2 hc3
  have hclose_d := floatBrightness56_close d hd1 hd2 hd3
  simp only [c299, c587, c114] at hclose_c hclose_d
  simp only [brightness1000] at hgt
  omega

/-- The fold underlying argminBy stays among the start value and the
list's elements. -/
theorem argminBy_foldl_mem (f : Color → ℤ) :
    ∀ (xs : List Color) (b : Color),
      xs.foldl (fun best c => if f c < f best then c else best) b ∈ b :: xs := by
  intro xs
  induction xs with
  | nil => intro b; exact List.mem_cons_self _ _
  | cons hd tl ih =>
    intro b
    rw [List.foldl_cons]
    rcases List.mem_cons.mp (ih (if f hd < f b then hd else b)) with h | h
    · rw [h]
      split
      · exact List.mem_cons_of_mem _ (List.mem_cons_self _ _)
      · exact List.mem_cons_self _ _
    · exact List.mem_cons_of_mem _ (List.mem_cons_of_mem _ h)

/-- The minimum found by argminBy is an element of the list. -/
theorem argminBy_mem (f : Color → ℤ) (l : List Color) (x : Color)
    (h : argminBy f l = some x) : x ∈ l := by
  cases l with
  | nil => cases h
  | cons hd tl =>
    rw [argminBy, Option.some.injEq] at h
    rw [← h]
    exact argminBy_foldl_mem f tl hd

/-- Iterated darkening never increases any channel. -/
theorem darkenIter_le (n : ℕ) (c : Color) :
    (darkenIter n c).1 ≤ c.1 ∧ (darkenIter n c).2.1 ≤ c.2.1 ∧
      (darkenIter n c).2.2 ≤ c.2.2 := by
  induction n generalizing c with
  | zero => exact ⟨le_rfl, le_rfl, le_rfl⟩
  | succ m ih =>
    rw [darkenIter]
    obtain ⟨h1, h2, h3⟩ := darken_color_le c
    obtain ⟨g1, g2, g3⟩ := ih (darken_color c)
    exact ⟨g1.trans h1, g2.trans h2, g3.trans h3⟩

/-- C5 counterexample: foundation #1d1d1d = (29,29,29) and lipstick
#211346 = (33,19,70) have the same exact brightness 29.0, but in double
arithmetic the lipstick's brightness lands one ulp (2 ^ -48) below the
foundation's exactly-representable 29.0, so the source's loop condition
lipstick_brightness >= foundation_brightness is already False on entry
and the matcher returns the tied lipstick unchanged: its brightness is
not strictly below the foundation's and neither color is (0,0,0). -/
theorem recommend_returns_lipstick_of_equal_brightness :
    recommend_complementary_colors (29, 29, 29) (33, 19, 70)
      ⟨[(29, 29, 29)], [(1, 2, 3)], [(33, 19, 70)]⟩ =
      Except.ok ((29, 29, 29), (1, 2, 3), (33, 19, 70)) ∧
    calculate_brightness ((33, 19, 70) : Color) =
      calculate_brightness ((29, 29, 29) : Color) ∧
    ((33, 19, 70) : Color) ≠ ((0, 0, 0) : Color) := by
  refine ⟨by decide, ?_, by decide⟩
  rw [calculate_brightness_eq, calculate_brightness_eq]
  norm_num [brightness1000]

/-- C5 (amended): whenever `recommend_complementary_colors` returns a
result on a palette of uint8 colors, the returned lipstick's perceived
brightness is less than or equal to the returned foundation's.  The
inequality is strict except at double-precision ties: the loop exits on
the double comparison, which can see the lipstick one ulp below a
foundation of equal exact brightness. -/
theorem recommend_lipstick_not_brighter
    (skin lip : Color) (s : ColorScheme) (f e l : Color)
    (hf255 : ∀ c ∈ s.foundation_colors, c.1 ≤ 255 ∧ c.2.1 ≤ 255 ∧ c.2.2 ≤ 255)
    (hl255 : ∀ c ∈ s.lipstick_colors, c.1 ≤ 255 ∧ c.2.1 ≤ 255 ∧ c.2.2 ≤ 255)
    (h : recommend_complementary_colors skin lip s = Except.ok (f, e, l)) :
    calculate_brightness l ≤ calculate_brightness f := by
  rw [calculate_brightness_le_iff]
  unfold recommend_complementary_colors at h
  split at h
  case _ f0 e0 l0 heq1 heq2 heq3 =>
    dsimp only at h
    split at h
    case _ n hfind =>
      simp only [Except.ok.injEq, Prod.mk.injEq] at h
      obtain ⟨rfl, -, rfl⟩ := h
      have hflt := List.find?_some hfind
      rw [decide_eq_true_iff] at hflt
      obtain ⟨ha, hb, hc⟩ := hf255 f0 (argminBy_mem _ _ _ heq1)
      obtain ⟨hd, he, hf2⟩ := hl255 l0 (argminBy_mem _ _ _ heq3)
      obtain ⟨hi1, hi2, hi3⟩ := darkenIter_le n l0
      exact floatBrightness_lt_imp_le _ _
        (hi1.trans hd) (hi2.trans he) (hi3.trans hf2) ha hb hc hflt
    case _ => exact absurd h (by simp)
  case _ => exact absurd h (by simp)

/-- C5 witness: on the palette with foundation (10,10,10), eyeshadow
(1,2,3) and lipstick (1,1,1), the matcher returns and the returned
lipstick is not brighter than the foundation. -/
theorem recommend_lipstick_not_brighter_witness :
    calculate_brightness ((1, 1, 1) : Color) ≤ calculate_brightness ((10, 10, 10) : Color) :=
  recommend_lipstick_not_brighter (0, 0, 0) (0, 0, 0)
    ⟨[(10, 10, 10)], [(1, 2, 3)], [(1, 1, 1)]⟩ (10, 10, 10) (1, 2, 3) (1, 1, 1)
    (by decide) (by decide) (by decide)

/-- C3: the source does not cap the darkening loop.  When the matched
foundation color is (0,0,0) (brightness 0), the loop condition
lipstick_brightness >= foundation_brightness holds after every number
of darkening steps — darkening fixes (0,0,0) and brightness is never
negative — so the while-loop never terminates; on such a palette the
embedding returns the loopDiverges marker instead of a result. -/
theorem darkening_loop_uncapped_on_zero_brightness_foundation : ∀ n : ℕ,
    calculate_brightness ((0, 0, 0) : Color) ≤
      calculate_brightness (darkenIter n ((2, 1, 0) : Color)) ∧
    recommend_complementary_colors (200, 180, 160) (150, 50, 70)
      ⟨[(0, 0, 0)], [(120, 110, 100)], [(2, 1, 0)]⟩ =
      Except.error RecErr.loopDiverges := by
  intro n
  constructor
  · rw [show calculate_brightness ((0, 0, 0) : Color) = 0 by
      norm_num [calculate_brightness]]
    exact calculate_brightness_nonneg _
  · decide

/-- C7: a palette with all three categories non-empty on which the
source nevertheless produces no result: its only foundation color is
(0,0,0), the darkening loop never exits (see
`recommend_loopDiverges_no_exit`), and the embedding reports the
divergence marker rather than a returned triple. -/
theorem recommend_diverges_on_nonempty_palette :
    recommend_complementary_colors (10, 10, 10) (60, 40, 40)
      ⟨[(0, 0, 0)], [(30, 20, 10)], [(3, 2, 1)]⟩ =
      Except.error RecErr.loopDiverges := by
  decide

/-- C9: repeated application of darken_color is monotonically
non-increasing in perceived brightness, and from any color with all
channels in [0, 255] the iteration reaches exactly (0,0,0) within 765
steps (765 bounds the channel sum, which strictly decreases while
nonzero, and (0,0,0) is a fixed point). -/
theorem darken_color_monotone_reaches_black (c : Color)
    (h1 : c.1 ≤ 255) (h2 : c.2.1 ≤ 255) (h3 : c.2.2 ≤ 255) :
    (∀ n : ℕ, calculate_brightness (darkenIter (n + 1) c) ≤
        calculate_brightness (darkenIter n c)) ∧
    darkenIter 765 c = ((0, 0, 0) : Color) := by
  constructor
  · intro n
    rw [calculate_brightness_le_iff, darkenIter_succ_outer]
    exact brightness1000_darken_le _
  · exact darkenIter_eq_zero 765 c (by omega)

/-- C9 witness: instantiation at (200, 100, 50). -/
theorem darken_color_monotone_reaches_black_witness :
    calculate_brightness (darkenIter 1 ((200, 100, 50) : Color)) ≤
      calculate_brightness (darkenIter 0 ((200, 100, 50) : Color)) ∧
    darkenIter 765 ((200, 100, 50) : Color) = ((0, 0, 0) : Color) :=
  ⟨(darken_color_monotone_reaches_black (200, 100, 50)
      (by decide) (by decide) (by decide)).1 0,
   (darken_color_monotone_reaches_black (200, 100, 50)
      (by decide) (by decide) (by decide)).2⟩

/-! ## Compositor evaluations -/

/-- C1: the compositor does not leave unmasked pixels unchanged.  On a
1-by-1 BGR image [[(100,100,100)]] whose single pixel is outside the
mask ([[0]]), blending any color at opacity 1/2 yields (50,50,50): the
source applies cv2.addWeighted to the whole image against an overlay
that is transparent black outside the mask, darkening every unmasked
pixel by the factor 1 - opacity, although its own docstring says the
blend happens only where the mask is nonzero. -/
theorem compositor_darkens_unmasked_pixel :
    apply_makeup_directly [[(100, 100, 100)]] [[0]] (10, 20, 30) (1/2) =
      [[(50, 50, 50)]] := by
  have h50 : addWeightedCh (2⁻¹ : ℚ) 100 0 = 50 := by
    unfold addWeightedCh
    have h : round ((1 - (2:ℚ)⁻¹) * ((100:ℕ):ℚ) + (2:ℚ)⁻¹ * ((0:ℕ):ℚ)) = 50 := by
      push_cast; norm_num [round_eq]
    rw [h]; decide
  simp [apply_makeup_directly, addWeightedPix, h50]

/-- C4: compositing at the extreme opacities.  At opacity 0 the image
is returned pixel-for-pixel unchanged; at opacity 1 every masked pixel
is set exactly to the supplied blend color, but every unmasked pixel is
zeroed to (0,0,0) rather than left unchanged, because the whole image
is blended with weight 1 - opacity = 0 against the transparent overlay. -/
theorem compositor_opacity_extremes :
    apply_makeup_directly [[(100, 100, 100), (40, 50, 60)]] [[0, 255]] (10, 20, 30) 1 =
      [[(0, 0, 0), (10, 20, 30)]] ∧
    apply_makeup_directly [[(100, 100, 100), (40, 50, 60)]] [[0, 255]] (10, 20, 30) 0 =
      [[(100, 100, 100), (40, 50, 60)]] := by
  constructor
  · have hz : ∀ a : ℕ, a ≤ 255 → addWeightedCh 1 a 0 = 0 := by
      intro a ha
      unfold addWeightedCh
      have h : round ((1 - (1:ℚ)) * (a:ℚ) + 1 * ((0:ℕ):ℚ)) = 0 := by
        push_cast; norm_num
      rw [h]; decide
    have hc : ∀ a b : ℕ, b ≤ 255 → addWeightedCh 1 a b = b := by
      intro a b hb
      unfold addWeightedCh
      have h : round ((1 - (1:ℚ)) * (a:ℚ) + 1 * (b:ℚ)) = (b:ℤ) := by
        norm_num
      rw [h]
      unfold saturate
      omega
    simp [apply_makeup_directly, addWeightedPix, hz, hc]
  · have hc : ∀ a b : ℕ, a ≤ 255 → addWeightedCh 0 a b = a := by
      intro a b ha
      unfold addWeightedCh
      have h : round ((1 - (0:ℚ)) * (a:ℚ) + 0 * (b:ℚ)) = (a:ℤ) := by
        norm_num
      rw [h]
      unfold saturate
      omega
    simp [apply_makeup_directly, addWeightedPix, hc]

/-! ## Lemmas about the mean color extraction -/

/-- Pointwise description of zipWith through optional indexing. -/
theorem getElem?_zipWith_eq_some {α β γ : Type} (g : α → β → γ) :
    ∀ (l1 : List α) (l2 : List β) (i : ℕ) (a : α) (b : β),
      l1[i]? = some a → l2[i]? = some b → (List.zipWith g l1 l2)[i]? = some (g a b) := by
  intro l1
  induction l1 with
  | nil => intro l2 i a b h1 _; simp at h1
  | cons hd tl ih =>
    intro l2 i a b h1 h2
    cases l2 with
    | nil => simp at h2
    | cons hd2 tl2 =>
      cases i with
      | zero =>
        simp only [List.getElem?_cons_zero, Option.some.injEq] at h1 h2
        simp [List.zipWith, h1, h2]
      | succ j =>
        simp only [List.getElem?_cons_succ] at h1 h2
        simpa [List.zipWith] using ih tl2 j a b h1 h2

/-- A nonzero mask entry stays nonzero (at the same position) after the
0/1-mask normalisation step. -/
theorem normMask_nonzero_at (mask : Mask) (y x : ℕ) (mrow : List ℕ) (v : ℕ)
    (hmrow : mask[y]? = some mrow) (hv : mrow[x]? = some v) (hvpos : 0 < v) :
    ∃ mrow2 v2, (normMask mask)[y]? = some mrow2 ∧ mrow2[x]? = some v2 ∧ 0 < v2 := by
  unfold normMask
  split
  · refine ⟨mrow.map (fun w => w * 255), v * 255, ?_, ?_, by omega⟩
    · rw [List.getElem?_map, hmrow]; rfl
    · rw [List.getElem?_map, hv]; rfl
  · exact ⟨mrow, v, hmrow, hv, hvpos⟩

/-- A pixel with all channels positive sitting at a nonzero mask
position survives into selectedPixels. -/
theorem mem_selectedPixels (frame : Img) (m : Mask) (y x : ℕ)
    (row : List Pix) (mrow : List ℕ) (p : Pix) (v : ℕ)
    (hrow : frame[y]? = some row) (hmrow : m[y]? = some mrow)
    (hp : row[x]? = some p) (hv : mrow[x]? = some v) (hvpos : 0 < v)
    (hb : 0 < p.1) (hg : 0 < p.2.1) (hr : 0 < p.2.2) :
    p ∈ selectedPixels frame m := by
  have hinner :
      (List.zipWith (fun (q : Pix) (w : ℕ) => if w ≠ 0 then q else ((0, 0, 0) : Pix))
        row mrow)[x]? = some p := by
    rw [getElem?_zipWith_eq_some _ row mrow x p v hp hv, if_pos (by omega)]
  have houter : (maskedImage frame m)[y]? =
      some (List.zipWith (fun (q : Pix) (w : ℕ) => if w ≠ 0 then q else ((0, 0, 0) : Pix))
        row mrow) :=
    getElem?_zipWith_eq_some _ frame m y row mrow hrow hmrow
  have hpmem : p ∈ (maskedImage frame m).flatten := by
    rw [List.mem_flatten]
    exact ⟨_, List.getElem?_mem houter, List.getElem?_mem hinner⟩
  unfold selectedPixels
  rw [List.mem_filter]
  refine ⟨hpmem, ?_⟩
  simp [hb, hg, hr]

/-- C2 counterexample: a masked pixel whose blue channel is 5 (nonzero)
but whose green and red channels are 0 is excluded by the source's
all-channels-positive filter, so both mean color functions return their
fallback constants although the masked region contains a pixel with a
nonzero channel. -/
theorem mean_color_fallback_on_pixel_with_zero_channel :
    compute_mean_skin_color [[(5, 0, 0)]] [[255]] = (200, 180, 160) ∧
    compute_mean_lip_color [[(5, 0, 0)]] [[255]] = (150, 50, 70) := by decide

/-- C2 (amended): the extraction excludes a masked pixel as soon as any
of its channels is zero; whenever some masked pixel has every channel
nonzero, at least one pixel survives and both functions return the
per-channel truncated mean of the surviving pixels (the non-fallback
branch; the mean value itself may still coincide with the fallback
constant). -/
theorem mean_color_mean_branch_of_all_channels_positive
    (frame : Img) (mask : Mask) (y x : ℕ) (row : List Pix) (mrow : List ℕ)
    (p : Pix) (v : ℕ)
    (hrow : frame[y]? = some row) (hmrow : mask[y]? = some mrow)
    (hp : row[x]? = some p) (hv : mrow[x]? = some v) (hvpos : 0 < v)
    (hb : 0 < p.1) (hg : 0 < p.2.1) (hr : 0 < p.2.2) :
    0 < (selectedPixels frame (normMask mask)).length ∧
    compute_mean_skin_color frame mask =
      meanColorRGB (selectedPixels frame (normMask mask)) ∧
    compute_mean_lip_color frame mask =
      meanColorRGB (selectedPixels frame (normMask mask)) := by
  obtain ⟨mrow2, v2, h1, h2, h3⟩ := normMask_nonzero_at mask y x mrow v hmrow hv hvpos
  have hmem : p ∈ selectedPixels frame (normMask mask) :=
    mem_selectedPixels frame (normMask mask) y x row mrow2 p v2 hrow h1 hp h2 h3 hb hg hr
  have hlen : 0 < (selectedPixels frame (normMask mask)).length :=
    List.length_pos.mpr (fun he => by rw [he] at hmem; cases hmem)
  refine ⟨hlen, ?_, ?_⟩
  · unfold compute_mean_skin_color
    rw [if_neg (by omega)]
  · unfold compute_mean_lip_color
    rw [if_neg (by omega)]

/-- C2 witness: instantiation on a 1-by-1 frame whose pixel is (5,5,5)
under mask value 255. -/
theorem mean_color_mean_branch_witness :
    0 < (selectedPixels [[(5, 5, 5)]] (normMask [[255]])).length ∧
    compute_mean_skin_color [[(5, 5, 5)]] [[255]] =
      meanColorRGB (selectedPixels [[(5, 5, 5)]] (normMask [[255]])) ∧
    compute_mean_lip_color [[(5, 5, 5)]] [[255]] =
      meanColorRGB (selectedPixels [[(5, 5, 5)]] (normMask [[255]])) :=
  mean_color_mean_branch_of_all_channels_positive [[(5, 5, 5)]] [[255]] 0 0
    [(5, 5, 5)] [255] (5, 5, 5) 255 (by decide) (by decide) (by decide) (by decide)
    (by decide) (by decide) (by decide) (by decide)

/-! ## Lemmas about the hex round trip -/

/-- Successful association-list lookup means the pair is in the list. -/
theorem lookup_mem {α β : Type} [BEq α] [LawfulBEq α] :
    ∀ {ps : List (α × β)} {c : α} {v : β}, ps.lookup c = some v → (c, v) ∈ ps := by
  intro ps
  induction ps with
  | nil => intro c v h; simp [List.lookup] at h
  | cons hd tl ih =>
    intro c v h
    obtain ⟨k, b⟩ := hd
    rw [List.lookup] at h
    split at h
    · rename_i hbe
      obtain rfl : c = k := eq_of_beq hbe
      obtain rfl : b = v := by injection h
      exact List.mem_cons_self _ _
    · exact List.mem_cons_of_mem _ (ih h)

/-- Any accepted hex digit has value below 16, rendering back as its
own lowercase form, and is not the '#' character. -/
theorem hexDigit_spec (c : Char) (v : ℕ) (h : hexDigit c = some v) :
    v < 16 ∧ hexCharOf v = c.toLower ∧ (c == '#') = false := by
  have hall : ∀ p ∈ hexPairs,
      p.2 < 16 ∧ hexCharOf p.2 = p.1.toLower ∧ (p.1 == '#') = false := by decide
  exact hall (c, v) (lookup_mem h)

/-- C6 counterexample: on the well-formed 6-hex-digit string "aabbcc"
written without the '#' prefix, the round trip produces "#aabbcc",
which differs from the input even case-insensitively, because
rgb_to_hex always prepends '#' while hex_to_rgb merely tolerates it. -/
theorem hex_round_trip_adds_hash_prefix :
    Option.map rgb_to_hex (hex_to_rgb "aabbcc") = some "#aabbcc" ∧
    lowerStr "#aabbcc" ≠ lowerStr "aabbcc" := by decide

/-- C6 (amended): for every well-formed 6-hex-digit string written WITH
the '#' prefix, in any letter case, the round trip returns exactly the
lowercase form of the input, i.e. reproduces it up to case; without the
prefix the round trip prepends '#' and the input is not reproduced. -/
theorem hex_round_trip_reproduces_lowercase
    (s : String) (c1 c2 c3 c4 c5 c6 : Char) (v1 v2 v3 v4 v5 v6 : ℕ)
    (hs : s.data = ['#', c1, c2, c3, c4, c5, c6])
    (h1 : hexDigit c1 = some v1) (h2 : hexDigit c2 = some v2)
    (h3 : hexDigit c3 = some v3) (h4 : hexDigit c4 = some v4)
    (h5 : hexDigit c5 = some v5) (h6 : hexDigit c6 = some v6) :
    Option.map rgb_to_hex (hex_to_rgb s) = some (lowerStr s) := by
  obtain ⟨hv1, hc1, hh1⟩ := hexDigit_spec c1 v1 h1
  obtain ⟨hv2, hc2, -⟩ := hexDigit_spec c2 v2 h2
  obtain ⟨hv3, hc3, -⟩ := hexDigit_spec c3 v3 h3
  obtain ⟨hv4, hc4, -⟩ := hexDigit_spec c4 v4 h4
  obtain ⟨hv5, hc5, -⟩ := hexDigit_spec c5 v5 h5
  obtain ⟨hv6, hc6, -⟩ := hexDigit_spec c6 v6 h6
  have hdrop : s.data.dropWhile (fun c => c == '#') = [c1, c2, c3, c4, c5, c6] := by
    rw [hs]
    simp [List.dropWhile_cons, hh1]
  have hparse : hex_to_rgb s = some (16 * v1 + v2, 16 * v3 + v4, 16 * v5 + v6) := by
    unfold hex_to_rgb
    rw [hdrop]
    simp [parseHex2, h1, h2, h3, h4, h5, h6]
  rw [hparse]
  have e1 : (16 * v1 + v2) / 16 = v1 := by omega
  have e2 : (16 * v1 + v2) % 16 = v2 := by omega
  have e3 : (16 * v3 + v4) / 16 = v3 := by omega
  have e4 : (16 * v3 + v4) % 16 = v4 := by omega
  have e5 : (16 * v5 + v6) / 16 = v5 := by omega
  have e6 : (16 * v5 + v6) % 16 = v6 := by omega
  have hhash : Char.toLower '#' = '#' := by decide
  unfold rgb_to_hex lowerStr toHex2
  rw [hs]
  simp [e1, e2, e3, e4, e5, e6, hc1, hc2, hc3, hc4, hc5, hc6, hhash]

/-- C6 witness: the amended round trip at the mixed-case input
"#A1b2C3". -/
theorem hex_round_trip_reproduces_lowercase_witness :
    Option.map rgb_to_hex (hex_to_rgb "#A1b2C3") = some (lowerStr "#A1b2C3") :=
  hex_round_trip_reproduces_lowercase "#A1b2C3" 'A' '1' 'b' '2' 'C' '3' 10 1 11 2 12 3
    (by decide) (by decide) (by decide) (by decide) (by decide) (by decide) (by decide)

/-! ## Lemmas about the mask builder -/

/-- A fold whose step never changes the accumulator returns the start
value. -/
theorem foldl_fixed {α β : Type} (f : β → α → β) (h : ∀ b a, f b a = b) :
    ∀ (l : List α) (b : β), List.foldl f b l = b := by
  intro l
  induction l with
  | nil => intro b; rfl
  | cons hd tl ih => intro b; rw [List.foldl_cons, h, ih]

/-- A fold whose step preserves an invariant preserves it overall. -/
theorem foldl_preserves {α β : Type} (P : β → Prop) (f : β → α → β)
    (h : ∀ b a, P b → P (f b a)) :
    ∀ (l : List α) (b : β), P b → P (List.foldl f b l) := by
  intro l
  induction l with
  | nil => intro b hb; exact hb
  | cons hd tl ih => intro b hb; exact ih _ (h _ _ hb)

/-- Resolving indices through an empty landmark map yields no points. -/
theorem filterMap_lookup_nil (l : List ℕ) :
    (l.filterMap (fun idx => (([] : List (ℕ × Point)).lookup idx))) = [] := by
  induction l with
  | nil => rfl
  | cons hd tl ih => simp [List.filterMap_cons, List.lookup, ih]

/-- Filling one row preserves its length. -/
theorem fillRow_length (rast : Raster) (pts : List Point) (color y : ℕ) :
    ∀ (x : ℕ) (vs : List ℕ), (fillRow rast pts color y x vs).length = vs.length := by
  intro x vs
  induction vs generalizing x with
  | nil => rfl
  | cons hd tl ih => simp [fillRow, ih]

/-- Every value of a filled row is the fill color or an original value. -/
theorem fillRow_mem (rast : Raster) (pts : List Point) (color y : ℕ) :
    ∀ (x : ℕ) (vs : List ℕ) (v : ℕ),
      v ∈ fillRow rast pts color y x vs → v = color ∨ v ∈ vs := by
  intro x vs
  induction vs generalizing x with
  | nil => intro v h; cases h
  | cons hd tl ih =>
    intro v h
    rw [fillRow] at h
    rcases List.mem_cons.mp h with h1 | h1
    · split at h1
      · exact Or.inl h1
      · exact Or.inr (h1 ▸ List.mem_cons_self _ _)
    · rcases ih _ _ h1 with h2 | h2
      · exact Or.inl h2
      · exact Or.inr (List.mem_cons_of_mem _ h2)

/-- Filling rows preserves the row-length profile. -/
theorem fillRows_rowLens (rast : Raster) (pts : List Point) (color : ℕ) :
    ∀ (y : ℕ) (m : Mask),
      (fillRows rast pts color y m).map List.length = m.map List.length := by
  intro y m
  induction m generalizing y with
  | nil => rfl
  | cons hd tl ih => simp [fillRows, fillRow_length, ih]

/-- Every row of the filled grid comes from filling some original row. -/
theorem fillRows_mem (rast : Raster) (pts : List Point) (color : ℕ) :
    ∀ (y : ℕ) (m : Mask) (row : List ℕ), row ∈ fillRows rast pts color y m →
      ∃ x row0, row0 ∈ m ∧ row = fillRow rast pts color x 0 row0 := by
  intro y m
  induction m generalizing y with
  | nil => intro row h; cases h
  | cons hd tl ih =>
    intro row h
    rw [fillRows] at h
    rcases List.mem_cons.mp h with h1 | h1
    · exact ⟨y, hd, List.mem_cons_self _ _, h1⟩
    · obtain ⟨x, row0, hm, he⟩ := ih _ _ h1
      exact ⟨x, row0, List.mem_cons_of_mem _ hm, he⟩

/-- fillPoly keeps the row-length profile of the grid. -/
theorem fillPoly_rowLens (rast : Raster) (m : Mask) (pts : List Point) (color : ℕ) :
    (fillPoly rast m pts color).map List.length = m.map List.length :=
  fillRows_rowLens rast pts color 0 m

/-- fillPoly with fill value 255 keeps every cell in {0, 255} when the
grid already satisfies that. -/
theorem fillPoly_vals (rast : Raster) (m : Mask) (pts : List Point)
    (hm : ∀ row ∈ m, ∀ v ∈ row, v = 0 ∨ v = 255) :
    ∀ row ∈ fillPoly rast m pts 255, ∀ v ∈ row, v = 0 ∨ v = 255 := by
  intro row hrow v hv
  obtain ⟨x, row0, hm0, rfl⟩ := fillRows_mem rast pts 255 0 m row hrow
  rcases fillRow_mem rast pts 255 x 0 row0 v hv with h | h
  · exact Or.inr h
  · exact hm row0 hm0 v h

/-- The zero grid has the template's row-length profile. -/
theorem zerosLike_rowLens (t : Img) :
    (zerosLike t).map List.length = t.map List.length := by
  simp [zerosLike, List.map_map, Function.comp_def]

/-- Every cell of the zero grid is zero. -/
theorem zerosLike_all_zero (t : Img) :
    ∀ row ∈ zerosLike t, ∀ v ∈ row, v = 0 := by
  intro row hrow v hv
  unfold zerosLike at hrow
  obtain ⟨row0, -, rfl⟩ := List.mem_map.mp hrow
  obtain ⟨p, -, rfl⟩ := List.mem_map.mp hv
  rfl

/-- C8: called with an empty Landmark Map, the mask builder returns the
zero grids themselves — no feature resolves any point, so no polygon is
filled — and hence both output masks are entirely zero, for every
rasteriser, template shape and region index configuration. -/
theorem empty_landmark_map_gives_all_zero_masks (rast : Raster) (template : Img)
    (face_connections lip_connections : List ℕ) :
    add_reverse_mask_and_lips rast template [] face_connections lip_connections =
      (zerosLike template, zerosLike template) ∧
    (∀ row ∈ (add_reverse_mask_and_lips rast template [] face_connections
        lip_connections).1, ∀ v ∈ row, v = 0) ∧
    (∀ row ∈ (add_reverse_mask_and_lips rast template [] face_connections
        lip_connections).2, ∀ v ∈ row, v = 0) := by
  have heq : add_reverse_mask_and_lips rast template [] face_connections lip_connections =
      (zerosLike template, zerosLike template) := by
    unfold add_reverse_mask_and_lips
    dsimp only
    rw [filterMap_lookup_nil]
    congr 1
  refine ⟨heq, ?_, ?_⟩
  · rw [heq]; exact zerosLike_all_zero template
  · rw [heq]; exact zerosLike_all_zero template

/-- C10: for every rasteriser, template, landmark map and index lists,
both masks built by add_reverse_mask_and_lips have exactly the
template's height and row widths, and every cell of either mask is
exactly 0 or exactly 255. -/
theorem built_masks_shape_and_binary (rast : Raster) (template : Img)
    (idx_to_coordinates : List (ℕ × Point))
    (face_connections lip_connections : List ℕ) :
    ((add_reverse_mask_and_lips rast template idx_to_coordinates face_connections
        lip_connections).1.map List.length = template.map List.length) ∧
    ((add_reverse_mask_and_lips rast template idx_to_coordinates face_connections
        lip_connections).2.map List.length = template.map List.length) ∧
    (∀ row ∈ (add_reverse_mask_and_lips rast template idx_to_coordinates face_connections
        lip_connections).1, ∀ v ∈ row, v = 0 ∨ v = 255) ∧
    (∀ row ∈ (add_reverse_mask_and_lips rast template idx_to_coordinates face_connections
        lip_connections).2, ∀ v ∈ row, v = 0 ∨ v = 255) := by
  have hbase : (zerosLike template).map List.length = template.map List.length ∧
      ∀ row ∈ zerosLike template, ∀ v ∈ row, v = 0 ∨ v = 255 :=
    ⟨zerosLike_rowLens template,
     fun row hr v hv => Or.inl (zerosLike_all_zero template row hr v hv)⟩
  have hfill : ∀ (m0 : Mask),
      (m0.map List.length = template.map List.length ∧
        (∀ row ∈ m0, ∀ v ∈ row, v = 0 ∨ v = 255)) →
      ∀ pts : List Point,
        ((fillPoly rast m0 pts 255).map List.length = template.map List.length ∧
          (∀ row ∈ fillPoly rast m0 pts 255, ∀ v ∈ row, v = 0 ∨ v = 255)) := by
    intro m0 hm pts
    exact ⟨by rw [fillPoly_rowLens]; exact hm.1, fillPoly_vals rast m0 pts hm.2⟩
  have hfold := foldl_preserves
    (fun fm : Mask => fm.map List.length = template.map List.length ∧
      ∀ row ∈ fm, ∀ v ∈ row, v = 0 ∨ v = 255)
    (fun fm feat =>
      if features_to_remove.contains feat.1 then fm
      else
        let points := feat.2.filterMap (fun idx => idx_to_coordinates.lookup idx)
        if points.isEmpty then fm else fillPoly rast fm points 255)
    (by
      intro fm feat hfm
      dsimp only
      split
      · exact hfm
      · split
        · exact hfm
        · exact hfill fm hfm _)
    face_points (zerosLike template) hbase
  have hlips : ∀ pts : List Point,
      ((if pts.isEmpty then zerosLike template
          else fillPoly rast (zerosLike template) pts 255).map List.length =
        template.map List.length) ∧
      (∀ row ∈ (if pts.isEmpty then zerosLike template
          else fillPoly rast (zerosLike template) pts 255), ∀ v ∈ row, v = 0 ∨ v = 255) := by
    intro pts
    split
    · exact hbase
    · exact hfill _ hbase pts
  unfold add_reverse_mask_and_lips
  dsimp only
  exact ⟨hfold.1, (hlips _).1, hfold.2, (hlips _).2⟩
